import Mathlib

/-!
Verification development for the kraken batch image optimizer.

The definitions below are a shallow embedding of the TypeScript sources:
`src/App.tsx` (batch registry, pipeline orchestrator, resize and thumbnail
adapters, naming coordinator, archive exporter) and the serverless naming
handler (`toSafeSlug`).  Browser primitives that are external to the
repository (image decode, canvas encode, `FileReader`, the compression
engine, `fetch`) are modelled as explicit oracle parameters; everything the
repository's own code computes is translated directly.
-/

namespace Kraken

/-! ### JavaScript string helpers -/

/-- ASCII whitespace as matched by the JavaScript regex class used in
`toSafeSlug` (the sources only ever feed ASCII model names through it). -/
def isJsSpace (c : Char) : Bool :=
  c = ' ' || c = '\t' || c = '\n' || c = '\r' || c = '\x0b' || c = '\x0c'

/-- JavaScript `String.prototype.trim` restricted to ASCII whitespace. -/
def jsTrim (l : List Char) : List Char :=
  ((l.dropWhile isJsSpace).reverse.dropWhile isJsSpace).reverse

/-- One character of the case-insensitive class `[a-z0-9]`. -/
def isAlnumCI (c : Char) : Bool :=
  (('a' ≤ c && c ≤ 'z') || ('A' ≤ c && c ≤ 'Z') || ('0' ≤ c && c ≤ '9'))

/-- `replace(/\.[a-z0-9]+$/i, '')`: strip one trailing dot-extension made of
case-insensitive alphanumerics. -/
def stripDotExt (l : List Char) : List Char :=
  let rev := l.reverse
  let suf := rev.takeWhile isAlnumCI
  match rev.drop suf.length with
  | '.' :: rest => if suf.isEmpty then l else rest.reverse
  | _ => l

/-- `replace(/\s+/g, '-')`: each maximal whitespace run becomes one hyphen.
The `Bool` argument records whether the previous character was whitespace. -/
def wsToHyphenAux : Bool → List Char → List Char
  | _, [] => []
  | prevWs, c :: rest =>
    if isJsSpace c then
      (if prevWs then [] else ['-']) ++ wsToHyphenAux true rest
    else c :: wsToHyphenAux false rest

def wsToHyphen (l : List Char) : List Char := wsToHyphenAux false l

/-- One character of the class `[a-z0-9-]`. -/
def isSlugChar (c : Char) : Bool :=
  (('a' ≤ c && c ≤ 'z') || ('0' ≤ c && c ≤ '9') || c = '-')

/-- The global replace of one-or-more hyphens by a single hyphen:
collapse hyphen runs. -/
def collapseHyphensAux : Bool → List Char → List Char
  | _, [] => []
  | prevH, c :: rest =>
    if c = '-' then
      (if prevH then [] else ['-']) ++ collapseHyphensAux true rest
    else c :: collapseHyphensAux false rest

def collapseHyphens (l : List Char) : List Char := collapseHyphensAux false l

/-- The global replace of a leading or trailing hyphen by nothing: remove one
leading and one trailing hyphen (the regex matches at most once at each end). -/
def stripEdgeHyphens (l : List Char) : List Char :=
  let l1 := match l with
    | '-' :: rest => rest
    | _ => l
  match l1.reverse with
  | '-' :: rest => rest.reverse
  | _ => l1

/-- `toSafeSlug` from the serverless naming handler: trim, strip a trailing
dot-extension, whitespace runs to hyphens, lowercase, non-`[a-z0-9-]` to
hyphens, collapse hyphen runs, strip edge hyphens, fall back to
`"optimized-image"` when empty. -/
def toSafeSlug (s : String) : String :=
  let base :=
    stripEdgeHyphens (collapseHyphens
      (((wsToHyphen (stripDotExt (jsTrim s.data))).map Char.toLower).map
        (fun c => if isSlugChar c then c else '-')))
  if base.isEmpty then "optimized-image" else String.mk base

/-! ### Data model (`src/types.ts`) -/

inductive ProcessingStatus where
  | pending
  | processing
  | completed
  | error
deriving DecidableEq, Repr

inductive TargetFormat where
  | original
  | webp
  | avif
  | jpeg
  | png
deriving DecidableEq, Repr

/-- The string a `TargetFormat` interpolates to in a template literal. -/
def TargetFormat.str : TargetFormat → String
  | .original => "original"
  | .webp => "webp"
  | .avif => "avif"
  | .jpeg => "jpeg"
  | .png => "png"

/-- A browser `File`, enriched with the intrinsic pixel dimensions its bytes
decode to (what `createImageBitmap` reports on success). -/
structure FileM where
  name : String
  type : String
  size : Nat
  width : Nat
  height : Nat
  lastModified : Nat
deriving DecidableEq, Repr

/-- A `Blob` produced by `canvas.toBlob`: the encoder reports a media type
(possibly `""`) and a byte size. -/
structure BlobM where
  btype : String
  bsize : Nat
deriving DecidableEq, Repr

structure ImageFile where
  id : String
  file : FileM
  preview : String
  status : ProcessingStatus
  progress : ℚ
  originalSize : Nat
  optimizedSize : Option Nat
  optimizedUrl : Option String
  optimizedName : Option String
  error : Option String
  aiSuggestedName : Option String
deriving DecidableEq, Repr

structure ProcessingSettings where
  targetFormat : TargetFormat
  quality : ℚ
  maxWidth : ℚ
  maxHeight : ℚ
  preserveMetadata : Bool
deriving DecidableEq, Repr

/-- JavaScript `String.prototype.split` with a single-character separator. -/
def splitChAux (sep : Char) : List Char → List Char → List (List Char)
  | acc, [] => [acc.reverse]
  | acc, c :: rest =>
    if c = sep then acc.reverse :: splitChAux sep [] rest
    else splitChAux sep (c :: acc) rest

def jsSplitChar (sep : Char) (s : String) : List String :=
  (splitChAux sep [] s.data).map String.mk

/-- JavaScript `String.prototype.startsWith`. -/
def strStartsWith (s p : String) : Bool :=
  p.data.isPrefixOf s.data

/-! ### Browser oracles

External browser primitives (`createImageBitmap`, `canvas.getContext`,
`canvas.toBlob`, `FileReader`) are modelled as an explicit oracle record;
the repository's code only branches on their success or failure. -/

structure Oracles where
  /-- `createImageBitmap` succeeds on this file (its dimensions are the
  file's intrinsic `width`/`height`). -/
  decodeOk : FileM → Bool
  /-- `canvas.getContext('2d')` returns a context. -/
  ctxOk : Bool
  /-- `canvas.toBlob(cb, type)` for a canvas of the given width and height:
  `none` models a `null` blob, otherwise the encoder reports a blob whose
  `btype` may differ from the requested type (or be empty). -/
  encode : Nat → Nat → String → Option BlobM
  /-- `canvas.toBlob(cb, 'image/jpeg', 0.75)` used by the thumbnail adapter. -/
  encodeJpeg : Nat → Nat → Option BlobM
  /-- `FileReader.readAsDataURL`: the resulting data URL, or a rejection. -/
  read : FileM → Except Unit String

/-! ### Resize Adapter (`resizeImageToFit`) -/

/-- JavaScript `Math.round`: floor of `q + 1/2`. -/
def jsRound (q : ℚ) : ℤ := ⌊q + 1 / 2⌋

/-- `Math.min(maxWidth / bitmap.width, maxHeight / bitmap.height, 1)`. -/
def scaleFor (file : FileM) (maxWidth maxHeight : ℚ) : ℚ :=
  min (min (maxWidth / (file.width : ℚ)) (maxHeight / (file.height : ℚ))) 1

/-- `Math.max(1, Math.round(bitmap.width * scale))`. -/
def targetWidthFor (file : FileM) (maxWidth maxHeight : ℚ) : Nat :=
  max 1 (jsRound ((file.width : ℚ) * scaleFor file maxWidth maxHeight)).toNat

/-- `Math.max(1, Math.round(bitmap.height * scale))`. -/
def targetHeightFor (file : FileM) (maxWidth maxHeight : ℚ) : Nat :=
  max 1 (jsRound ((file.height : ℚ) * scaleFor file maxWidth maxHeight)).toNat

def resizeImageToFit (o : Oracles) (file : FileM) (maxWidth maxHeight : ℚ) :
    FileM :=
  if ¬(0 < maxWidth ∧ 0 < maxHeight) then file
  else if ¬strStartsWith file.type "image/" then file
  else if o.decodeOk file = false then file
  else
    let scale := scaleFor file maxWidth maxHeight
    if 1 ≤ scale then file
    else
      let targetWidth := targetWidthFor file maxWidth maxHeight
      let targetHeight := targetHeightFor file maxWidth maxHeight
      if o.ctxOk = false then file
      else
        match o.encode targetWidth targetHeight file.type with
        | none => file
        | some blob =>
          { name := file.name
            type := if blob.btype = "" then file.type else blob.btype
            size := blob.bsize
            width := targetWidth
            height := targetHeight
            lastModified := file.lastModified }

/-! ### Thumbnail Adapter (`createAiThumbnailPayload`, `fileToDataUrl`) -/

structure AiPayload where
  mimeType : String
  data : String
deriving DecidableEq, Repr

/-- `dataUrl.split(',')[1] || ''`. -/
def b64Of (dataUrl : String) : String := (jsSplitChar ',' dataUrl).getD 1 ""

def fileToDataUrl (o : Oracles) (file : FileM) : Except Unit String :=
  o.read file

/-- The `File` the thumbnail adapter wraps around the jpeg blob:
`new File([blob], 'thumb.jpg', { type: blob.type || 'image/jpeg' })`. -/
def thumbFileOf (resized : FileM) (blob : BlobM) : FileM :=
  { name := "thumb.jpg"
    type := if blob.btype = "" then "image/jpeg" else blob.btype
    size := blob.bsize
    width := resized.width
    height := resized.height
    lastModified := 0 }

def createAiThumbnailPayload (o : Oracles) (file : FileM) :
    Except Unit AiPayload :=
  let resized := resizeImageToFit o file 512 512
  let fallback : Except Unit AiPayload :=
    match fileToDataUrl o resized with
    | .error e => .error e
    | .ok dataUrl => .ok { mimeType := resized.type, data := b64Of dataUrl }
  if o.decodeOk resized = false then fallback
  else if o.ctxOk = false then fallback
  else
    match o.encodeJpeg resized.width resized.height with
    | none => fallback
    | some blob =>
      match fileToDataUrl o (thumbFileOf resized blob) with
      | .error _ => fallback
      | .ok dataUrl =>
        .ok { mimeType := (thumbFileOf resized blob).type, data := b64Of dataUrl }

/-! ### Batch Registry mutations (`setImages` updaters in `processImage`) -/

/-- The value stored by the compression progress callback:
`10 + (p * 0.85)`. -/
def onProgressValue (p : ℚ) : ℚ := 10 + p * (85 / 100)

/-- `prev.map(img => img.id === id ? f(img) : img)` — the shape of every
registry mutation `processImage` and `suggestName` perform. -/
def updateById (imgs : List ImageFile) (i : String)
    (f : ImageFile → ImageFile) : List ImageFile :=
  imgs.map fun img => if img.id = i then f img else img

def processingF (img : ImageFile) : ImageFile :=
  { img with status := .processing, progress := 5 }

def progressF (p : ℚ) (img : ImageFile) : ImageFile :=
  { img with progress := onProgressValue p }

/-- JavaScript `x || d` for an optional string `x` (empty string is falsy). -/
def jsOrStr : Option String → String → String
  | some s, d => if s = "" then d else s
  | none, d => d

def completedF (size : Nat) (url fileName : String) (img : ImageFile) :
    ImageFile :=
  { img with
    status := .completed
    progress := 100
    optimizedSize := some size
    optimizedUrl := some url
    optimizedName := some (jsOrStr img.optimizedName fileName) }

def errorF (img : ImageFile) : ImageFile :=
  { img with status := .error, error := some "Process failed" }

/-! ### Pipeline Orchestrator (`processImage`, `processAll`) -/

/-- `s.split('.').pop()` (the split list is never empty). -/
def jsPopDot (s : String) : String := (jsSplitChar '.' s).getLastD ""

/-- `name.replace(<dot, then one-or-more chars that are neither dot nor
slash, at end>, "")`: strip the final extension. -/
def stripLastExt (s : String) : String :=
  let rev := s.data.reverse
  let suf := rev.takeWhile fun c => !(c = '.') && !(c = '/')
  match rev.drop suf.length with
  | '.' :: rest => if suf.isEmpty then s else String.mk rest.reverse
  | _ => s

def extensionFor (settings : ProcessingSettings) (file : FileM) : String :=
  match settings.targetFormat with
  | .original => jsPopDot file.name
  | f => f.str

/-- `image.file.name.replace(...) + "_opti." + extension`. -/
def optiFileName (settings : ProcessingSettings) (file : FileM) : String :=
  stripLastExt file.name ++ "_opti." ++ extensionFor settings file

structure CompressionOptions where
  maxSizeMB : ℚ
  maxWidthOrHeight : ℚ
  useWebWorker : Bool
  fileType : String
deriving DecidableEq, Repr

def optionsFor (settings : ProcessingSettings) (image : ImageFile) :
    CompressionOptions :=
  { maxSizeMB := (image.originalSize : ℚ) / 1024 / 1024 * settings.quality
    maxWidthOrHeight := max settings.maxWidth settings.maxHeight
    useWebWorker := true
    fileType :=
      match settings.targetFormat with
      | .original => image.file.type
      | f => "image/" ++ f.str }

/-- The external compression engine together with `URL.createObjectURL` on
its result: `none` models a rejection, `some (cf, url)` the compressed file
and the object URL allocated for it. -/
def Compressor : Type :=
  CompressionOptions → FileM → Option (FileM × String)

/-- One run of `processImage` on `image` over registry state `imgs`:
the `processing` update, the delivered progress callbacks, then either the
`completed` or the `error` update. -/
def processImageRun (o : Oracles) (compress : Compressor)
    (progressEvents : List ℚ) (settings : ProcessingSettings)
    (image : ImageFile) (imgs : List ImageFile) : List ImageFile :=
  let imgs1 := updateById imgs image.id processingF
  let sourceFile := resizeImageToFit o image.file settings.maxWidth settings.maxHeight
  let imgs2 := progressEvents.foldl (fun s p => updateById s image.id (progressF p)) imgs1
  match compress (optionsFor settings image) sourceFile with
  | some (cf, url) =>
    updateById imgs2 image.id (completedF cf.size url (optiFileName settings image.file))
  | none => updateById imgs2 image.id errorF

def notCompleted (img : ImageFile) : Bool :=
  img.status != ProcessingStatus.completed

/-- `processAll`: filter the non-completed records, then await
`processImage` on each in order. -/
def processAll (o : Oracles) (compress : Compressor)
    (prog : String → List ℚ) (settings : ProcessingSettings)
    (imgs : List ImageFile) : List ImageFile :=
  (imgs.filter notCompleted).foldl
    (fun acc image => processImageRun o compress (prog image.id) settings image acc)
    imgs

/-- `processAll`, additionally recording the order in which records are
handed to `processImage`. -/
def processAllTrace (o : Oracles) (compress : Compressor)
    (prog : String → List ℚ) (settings : ProcessingSettings)
    (imgs : List ImageFile) : List ImageFile × List String :=
  (imgs.filter notCompleted).foldl
    (fun acc image =>
      (processImageRun o compress (prog image.id) settings image acc.1,
       acc.2 ++ [image.id]))
    (imgs, [])

/-! ### Naming Coordinator (`suggestName`) -/

/-- One run of `suggestName` for `image`.  `outcome` is the combined result
of the thumbnail upload and the `/api/suggest-name` call: `Except.error`
covers a transport failure, a non-2xx response and a JSON parse failure
(all of which throw into the `catch`, which performs no registry mutation);
`Except.ok nameField` is the parsed `json.name`. -/
def suggestNameRun (settings : ProcessingSettings) (image : ImageFile)
    (outcome : Except Unit (Option String)) (imgs : List ImageFile) :
    List ImageFile :=
  match outcome with
  | .error _ => imgs
  | .ok nameField =>
    let newName := String.mk (jsTrim (jsOrStr nameField "optimized-image").data)
    updateById imgs image.id fun img =>
      { img with
        optimizedName :=
          some (newName ++ "." ++
            (match img.optimizedName with
             | some n =>
               let e := jsPopDot n
               if e = "" then settings.targetFormat.str else e
             | none => settings.targetFormat.str)) }

/-! ### Archive Exporter (`downloadZip`) -/

/-- JavaScript truthiness of an optional URL string. -/
def urlPresent : Option String → Bool
  | some u => !(u = "")
  | none => false

/-- The selection of `downloadZip`:
`img.status === 'completed' && img.optimizedUrl`. -/
def zipSelB (img : ImageFile) : Bool :=
  img.status == ProcessingStatus.completed && urlPresent img.optimizedUrl

/-- One zip entry: `zip.file(img.optimizedName || 'image.webp', blob)` where
`blob` is the dereferenced result handle. -/
def zipEntry (deref : String → List Nat) (img : ImageFile) :
    String × List Nat :=
  (jsOrStr img.optimizedName "image.webp", deref (img.optimizedUrl.getD ""))

/-- `downloadZip` as the archive it assembles: `none` when no record
qualifies (early return, no archive), otherwise the ordered list of
`(entry name, entry bytes)` pairs added to the zip.  `deref` models
`fetch(objectUrl).blob()`. -/
def downloadZip (deref : String → List Nat) (imgs : List ImageFile) :
    Option (List (String × List Nat)) :=
  let completedImages := imgs.filter zipSelB
  if completedImages.length = 0 then none
  else some (completedImages.map (zipEntry deref))

/-- The spec-side selection predicate: status is `completed` and a result
handle is present. -/
def zipQualifies (img : ImageFile) : Prop :=
  img.status = ProcessingStatus.completed ∧
    ∃ u, img.optimizedUrl = some u ∧ u ≠ ""

/-! ### Handle lifecycle (`addFiles`, `removeImage`, `clearWorkspace`,
and the `useEffect` cleanup keyed on `images`) -/

/-- The object URLs a record owns, in the order the cleanup code revokes
them: `if (img.preview) revoke; if (img.optimizedUrl) revoke`. -/
def ownedHandles (img : ImageFile) : List String :=
  (if img.preview = "" then [] else [img.preview]) ++
    (match img.optimizedUrl with
     | some u => if u = "" then [] else [u]
     | none => [])

/-- The `useEffect(..., [images])` cleanup body: revoke every handle of the
array it closed over. -/
def effectCleanup (imgs : List ImageFile) : List String :=
  (imgs.map ownedHandles).flatten

/-- The record `addFiles` builds for one accepted file. -/
def mkNewImage (id : String) (file : FileM) (preview : String) : ImageFile :=
  { id := id
    file := file
    preview := preview
    status := .pending
    progress := 0
    originalSize := file.size
    optimizedSize := none
    optimizedUrl := none
    optimizedName := none
    error := none
    aiSuggestedName := none }

structure AppState where
  images : List ImageFile
  /-- Every `URL.revokeObjectURL` argument so far, in call order. -/
  revoked : List String
deriving DecidableEq, Repr

inductive AppOp where
  | addFiles (newFiles : List (String × FileM × String))
  | removeImage (id : String)
  | clearWorkspace
deriving DecidableEq, Repr

/-- One UI operation, together with the React effect lifecycle it triggers:
each of these operations replaces the `images` array with a fresh one, so
the cleanup of the previous `useEffect(..., [images])` run fires and revokes
every handle of the previous array. -/
def applyOp (s : AppState) (op : AppOp) : AppState :=
  match op with
  | .addFiles l =>
    { images := s.images ++ l.map fun t => mkNewImage t.1 t.2.1 t.2.2
      revoked := s.revoked ++ effectCleanup s.images }
  | .removeImage id =>
    let rel :=
      match s.images.find? (fun img => img.id == id) with
      | some t => ownedHandles t
      | none => []
    { images := s.images.filter fun img => img.id != id
      revoked := s.revoked ++ rel ++ effectCleanup s.images }
  | .clearWorkspace =>
    { images := []
      revoked := s.revoked ++ effectCleanup s.images ++ effectCleanup s.images }

def runOps (ops : List AppOp) : AppState :=
  ops.foldl applyOp { images := [], revoked := [] }

/-! ### Concrete instances used to exercise the definitions -/

/-- Oracles for a browser in which every decode and encode succeeds and the
encoder honours the requested media type. -/
def demoOracles : Oracles :=
  { decodeOk := fun _ => true
    ctxOk := true
    encode := fun _ _ t => some { btype := t, bsize := 10 }
    encodeJpeg := fun _ _ => some { btype := "image/jpeg", bsize := 5 }
    read := fun _ => .ok "data:image/jpeg;base64,QUJD" }

/-- Oracles for a browser in which decoding and reading always fail. -/
def badOracles : Oracles :=
  { decodeOk := fun _ => false
    ctxOk := true
    encode := fun _ _ t => some { btype := t, bsize := 1 }
    encodeJpeg := fun _ _ => none
    read := fun _ => .error () }

/-- Oracles in which decoding fails but the `FileReader` works, forcing the
thumbnail adapter onto its fallback path. -/
def fbOracles : Oracles :=
  { decodeOk := fun _ => false
    ctxOk := true
    encode := fun _ _ t => some { btype := t, bsize := 1 }
    encodeJpeg := fun _ _ => none
    read := fun _ => .ok "data:image/png;base64,QUJD" }

def demoSettings : ProcessingSettings :=
  { targetFormat := .webp
    quality := 8 / 10
    maxWidth := 2560
    maxHeight := 1440
    preserveMetadata := false }

def fileA : FileM :=
  { name := "beach.png", type := "image/png", size := 1000, width := 100
    height := 50, lastModified := 0 }

def fileB : FileM :=
  { name := "b.png", type := "image/png", size := 7, width := 2, height := 2
    lastModified := 0 }

def bigFile : FileM :=
  { name := "big.jpg", type := "image/jpeg", size := 1, width := 1600
    height := 1200, lastModified := 3 }

def recA : ImageFile := mkNewImage "a" fileA "blob:pA"

def recB : ImageFile := mkNewImage "b" fileB "blob:pB"

/-- A record that already finished a successful run. -/
def recCompleted : ImageFile :=
  { recA with
    status := .completed
    progress := 100
    optimizedSize := some 200
    optimizedUrl := some "blob:r1"
    optimizedName := some "done.webp" }

/-- A compression engine that always rejects. -/
def failCompressor : Compressor := fun _ _ => none

def demoCompressedFile : FileM :=
  { name := "c.webp", type := "image/webp", size := 200, width := 1
    height := 1, lastModified := 0 }

/-- A compression engine that always succeeds with a fixed result whose
object URL is `"blob:r1"`. -/
def okCompressor : Compressor := fun _ _ => some (demoCompressedFile, "blob:r1")

/-- The registry after record `"a"` fails a first batch run and is then
reprocessed successfully by a second one. -/
def staleErrorState : List ImageFile :=
  processAll demoOracles okCompressor (fun _ => []) demoSettings
    (processAll demoOracles failCompressor (fun _ => []) demoSettings [recA])

/-- Two consecutive `addFiles` calls: record `"a"` with preview handle
`"pA"`, then record `"b"` with preview handle `"pB"`. -/
def lifecycleOps : List AppOp :=
  [.addFiles [("a", fileA, "pA")], .addFiles [("b", fileB, "pB")]]

/-- A blob dereference that returns distinct bytes per object URL. -/
def demoDeref (u : String) : List Nat := u.data.map Char.toNat

/-! ## Helper lemmas -/

theorem updateById_id_of_absent (i : String) (f : ImageFile → ImageFile) :
    ∀ imgs : List ImageFile, (∀ rec ∈ imgs, rec.id ≠ i) →
      updateById imgs i f = imgs := by
  intro imgs
  induction imgs with
  | nil => intro _; rfl
  | cons a l ih =>
    intro h
    have ha : a.id ≠ i := h a (List.mem_cons_self a l)
    simp only [updateById, List.map_cons, if_neg ha]
    have := ih fun rec hr => h rec (List.mem_cons_of_mem a hr)
    simp only [updateById] at this
    rw [this]

theorem updateById_map_id (imgs : List ImageFile) (i : String)
    (f : ImageFile → ImageFile) (hf : ∀ img, (f img).id = img.id) :
    (updateById imgs i f).map ImageFile.id = imgs.map ImageFile.id := by
  unfold updateById
  rw [List.map_map]
  apply List.map_congr_left
  intro a _
  by_cases h : a.id = i
  · simp [Function.comp, h, hf]
  · simp [Function.comp, h]

theorem mem_updateById {rec : ImageFile} {imgs : List ImageFile} {i : String}
    {f : ImageFile → ImageFile} (h : rec ∈ updateById imgs i f) :
    ∃ rec₀ ∈ imgs, rec = if rec₀.id = i then f rec₀ else rec₀ := by
  unfold updateById at h
  obtain ⟨rec₀, h₀, heq⟩ := List.mem_map.mp h
  exact ⟨rec₀, h₀, heq.symm⟩

theorem updateById_terminal_self (imgs : List ImageFile) (i : String)
    (f : ImageFile → ImageFile)
    (hft : ∀ img, (f img).status = ProcessingStatus.completed ∨
      (f img).status = ProcessingStatus.error) :
    ∀ rec ∈ updateById imgs i f, rec.id = i →
      rec.status = ProcessingStatus.completed ∨
        rec.status = ProcessingStatus.error := by
  intro rec hmem hid
  obtain ⟨r0, h0, heq⟩ := mem_updateById hmem
  by_cases h : r0.id = i
  · rw [if_pos h] at heq
    rw [heq]
    exact hft r0
  · rw [if_neg h] at heq
    rw [heq] at hid
    exact absurd hid h

theorem updateById_preserve_at (imgs : List ImageFile) (i : String)
    (f : ImageFile → ImageFile) (x : String) (hx : x ≠ i)
    (hfid : ∀ img, (f img).id = img.id)
    (hacc : ∀ rec ∈ imgs, rec.id = x →
      rec.status = ProcessingStatus.completed ∨
        rec.status = ProcessingStatus.error) :
    ∀ rec ∈ updateById imgs i f, rec.id = x →
      rec.status = ProcessingStatus.completed ∨
        rec.status = ProcessingStatus.error := by
  intro rec hmem hid
  obtain ⟨r0, h0, heq⟩ := mem_updateById hmem
  by_cases h : r0.id = i
  · exfalso
    apply hx
    rw [← hid, heq, if_pos h, hfid r0, h]
  · rw [if_neg h] at heq
    rw [heq] at hid ⊢
    exact hacc r0 h0 hid

theorem progressFold_map_id (i : String) :
    ∀ (pe : List ℚ) (acc : List ImageFile),
      ((pe.foldl (fun s p => updateById s i (progressF p)) acc).map
          ImageFile.id) = acc.map ImageFile.id := by
  intro pe
  induction pe with
  | nil => intro acc; rfl
  | cons p rest ih =>
    intro acc
    simp only [List.foldl_cons]
    rw [ih, updateById_map_id acc i (progressF p) (fun _ => rfl)]

theorem progressFold_preserve_at (i x : String) (hx : x ≠ i) :
    ∀ (pe : List ℚ) (acc : List ImageFile),
      (∀ rec ∈ acc, rec.id = x →
        rec.status = ProcessingStatus.completed ∨
          rec.status = ProcessingStatus.error) →
      ∀ rec ∈ pe.foldl (fun s p => updateById s i (progressF p)) acc,
        rec.id = x →
          rec.status = ProcessingStatus.completed ∨
            rec.status = ProcessingStatus.error := by
  intro pe
  induction pe with
  | nil => intro acc hacc; exact hacc
  | cons p rest ih =>
    intro acc hacc
    simp only [List.foldl_cons]
    exact ih _ (updateById_preserve_at acc i (progressF p) x hx (fun _ => rfl) hacc)

theorem processImageRun_map_id (o : Oracles) (c : Compressor) (pe : List ℚ)
    (settings : ProcessingSettings) (image : ImageFile)
    (imgs : List ImageFile) :
    (processImageRun o c pe settings image imgs).map ImageFile.id =
      imgs.map ImageFile.id := by
  simp only [processImageRun]
  cases hcp : c (optionsFor settings image)
      (resizeImageToFit o image.file settings.maxWidth settings.maxHeight) with
  | none =>
    dsimp only []
    rw [updateById_map_id _ image.id errorF (fun _ => rfl),
      progressFold_map_id image.id pe _,
      updateById_map_id imgs image.id processingF (fun _ => rfl)]
  | some pr =>
    obtain ⟨cf, url⟩ := pr
    dsimp only []
    rw [updateById_map_id _ image.id
        (completedF cf.size url (optiFileName settings image.file)) (fun _ => rfl),
      progressFold_map_id image.id pe _,
      updateById_map_id imgs image.id processingF (fun _ => rfl)]

theorem processImageRun_terminal_self (o : Oracles) (c : Compressor)
    (pe : List ℚ) (settings : ProcessingSettings) (image : ImageFile)
    (imgs : List ImageFile) :
    ∀ rec ∈ processImageRun o c pe settings image imgs, rec.id = image.id →
      rec.status = ProcessingStatus.completed ∨
        rec.status = ProcessingStatus.error := by
  simp only [processImageRun]
  cases hcp : c (optionsFor settings image)
      (resizeImageToFit o image.file settings.maxWidth settings.maxHeight) with
  | none =>
    exact updateById_terminal_self _ image.id errorF (fun _ => Or.inr rfl)
  | some pr =>
    obtain ⟨cf, url⟩ := pr
    exact updateById_terminal_self _ image.id _ (fun _ => Or.inl rfl)

theorem processImageRun_preserve_at (o : Oracles) (c : Compressor)
    (pe : List ℚ) (settings : ProcessingSettings) (image : ImageFile)
    (imgs : List ImageFile) (x : String) (hx : x ≠ image.id)
    (hacc : ∀ rec ∈ imgs, rec.id = x →
      rec.status = ProcessingStatus.completed ∨
        rec.status = ProcessingStatus.error) :
    ∀ rec ∈ processImageRun o c pe settings image imgs, rec.id = x →
      rec.status = ProcessingStatus.completed ∨
        rec.status = ProcessingStatus.error := by
  have h1 := updateById_preserve_at imgs image.id processingF x hx
    (fun _ => rfl) hacc
  have h2 := progressFold_preserve_at image.id x hx pe
    (updateById imgs image.id processingF) h1
  simp only [processImageRun]
  cases hcp : c (optionsFor settings image)
      (resizeImageToFit o image.file settings.maxWidth settings.maxHeight) with
  | none =>
    exact updateById_preserve_at _ image.id errorF x hx (fun _ => rfl) h2
  | some pr =>
    obtain ⟨cf, url⟩ := pr
    exact updateById_preserve_at _ image.id _ x hx (fun _ => rfl) h2

theorem batchFold_map_id (o : Oracles) (c : Compressor)
    (prog : String → List ℚ) (settings : ProcessingSettings) :
    ∀ (L acc : List ImageFile),
      ((L.foldl
          (fun a image => processImageRun o c (prog image.id) settings image a)
          acc).map ImageFile.id) = acc.map ImageFile.id := by
  intro L
  induction L with
  | nil => intro acc; rfl
  | cons img rest ih =>
    intro acc
    simp only [List.foldl_cons]
    rw [ih, processImageRun_map_id]

theorem batchFold_preserve_at (o : Oracles) (c : Compressor)
    (prog : String → List ℚ) (settings : ProcessingSettings) (x : String) :
    ∀ (L acc : List ImageFile), x ∉ L.map ImageFile.id →
      (∀ rec ∈ acc, rec.id = x →
        rec.status = ProcessingStatus.completed ∨
          rec.status = ProcessingStatus.error) →
      ∀ rec ∈ L.foldl
          (fun a image => processImageRun o c (prog image.id) settings image a)
          acc,
        rec.id = x →
          rec.status = ProcessingStatus.completed ∨
            rec.status = ProcessingStatus.error := by
  intro L
  induction L with
  | nil => intro acc _ hacc; exact hacc
  | cons img rest ih =>
    intro acc hnot hacc
    simp only [List.foldl_cons]
    have hx : x ≠ img.id := by
      intro h
      exact hnot (by simp [h])
    refine ih _ (fun hmem => hnot ?_) ?_
    · simp only [List.map_cons, List.mem_cons]
      exact Or.inr hmem
    · exact processImageRun_preserve_at o c (prog img.id) settings img acc x hx hacc

theorem batchFold_terminal (o : Oracles) (c : Compressor)
    (prog : String → List ℚ) (settings : ProcessingSettings) (x : String) :
    ∀ (L acc : List ImageFile), (L.map ImageFile.id).Nodup →
      x ∈ L.map ImageFile.id →
      ∀ rec ∈ L.foldl
          (fun a image => processImageRun o c (prog image.id) settings image a)
          acc,
        rec.id = x →
          rec.status = ProcessingStatus.completed ∨
            rec.status = ProcessingStatus.error := by
  intro L
  induction L with
  | nil => intro acc _ hmem; exact absurd hmem (List.not_mem_nil x)
  | cons img rest ih =>
    intro acc hnd hmem
    simp only [List.foldl_cons]
    simp only [List.map_cons, List.mem_cons] at hmem
    simp only [List.map_cons, List.nodup_cons] at hnd
    rcases hmem with h | h
    · subst h
      exact batchFold_preserve_at o c prog settings img.id rest _ hnd.1
        (processImageRun_terminal_self o c (prog img.id) settings img acc)
    · exact ih _ hnd.2 h

theorem notCompleted_iff (img : ImageFile) :
    notCompleted img = true ↔ img.status ≠ ProcessingStatus.completed := by
  simp [notCompleted]

theorem traceFold_snd (o : Oracles) (c : Compressor)
    (prog : String → List ℚ) (settings : ProcessingSettings) :
    ∀ (L : List ImageFile) (s0 : List ImageFile) (t0 : List String),
      (L.foldl
          (fun acc image =>
            (processImageRun o c (prog image.id) settings image acc.1,
              acc.2 ++ [image.id]))
          (s0, t0)).2 = t0 ++ L.map ImageFile.id := by
  intro L
  induction L with
  | nil => intro s0 t0; simp
  | cons img rest ih =>
    intro s0 t0
    simp only [List.foldl_cons, List.map_cons]
    rw [ih]
    simp

/-! ## Claims -/

/-- C6: slug derivation is a pure total function built from the stated
steps (trim, strip trailing dot-extension, whitespace to hyphens,
lowercase, non-`[a-z0-9-]` to hyphens, collapse and strip hyphens, fixed
fallback token on empty); on the claim's three inputs it yields
`"my-beach-photo"`, the fallback token `"optimized-image"`, and `"a-b"`. -/
theorem C6_toSafeSlug_examples :
    toSafeSlug "My Beach Photo.JPG" = "my-beach-photo" ∧
    toSafeSlug "   " = "optimized-image" ∧
    toSafeSlug "a///b" = "a-b" :=
  ⟨rfl, rfl, rfl⟩

/-- C7: when the naming flow fails (transport failure, non-2xx response or
JSON failure all throw into the `catch`, modelled as `Except.error`), the
registry is returned entirely unchanged: every record keeps its
`optimizedName`, its `status`, and its `error` field. -/
theorem C7_naming_failure_is_silent (settings : ProcessingSettings)
    (image : ImageFile) (e : Unit) (imgs : List ImageFile) :
    suggestNameRun settings image (.error e) imgs = imgs := rfl

/-- C2: every registry mutation performed while processing record `i` is an
`updateById` keyed by `i.id`; any such update leaves every record with a
different id unchanged (at its position), and when no record with that id
remains in the batch the whole registry is left unchanged — a late result
is discarded, never reinserted. -/
theorem C2_per_record_isolation (imgs : List ImageFile) (i : String)
    (f : ImageFile → ImageFile) :
    (∀ (k : ℕ) (rec : ImageFile), imgs[k]? = some rec → rec.id ≠ i →
        (updateById imgs i f)[k]? = some rec) ∧
    ((∀ rec ∈ imgs, rec.id ≠ i) → updateById imgs i f = imgs) := by
  constructor
  · intro k rec hk hne
    simp only [updateById, List.getElem?_map, hk]
    simp [hne]
  · exact updateById_id_of_absent i f imgs

/-- Witness for C2 at a concrete registry: updating record `"b"` leaves
record `"a"` in place, and an update keyed to an id absent from the batch
is the identity. -/
theorem C2_per_record_isolation_witness :
    (updateById [recA, recB] "b" errorF)[0]? = some recA ∧
    updateById [recA] "zzz" errorF = [recA] :=
  ⟨(C2_per_record_isolation [recA, recB] "b" errorF).1 0 recA rfl (by decide),
   (C2_per_record_isolation [recA] "zzz" errorF).2 (by decide)⟩

/-- C3 counterexample: the progress callback stores `10 + p * 0.85`, so for
an engine value `p = 1` at the top of the claimed `[0, 1]` scale it stores
`10.85`, not `95`, and the stored value is not an integer. -/
theorem C3_counterexample :
    onProgressValue 1 ≠ 95 ∧ ¬∃ n : ℤ, onProgressValue 1 = (n : ℚ) := by
  constructor
  · norm_num [onProgressValue]
  · rintro ⟨n, hn⟩
    rw [onProgressValue] at hn
    norm_num at hn
    have h20 : ((20 * n : ℤ) : ℚ) = 217 := by
      push_cast
      rw [← hn]
      ring
    have h20' : (20 * n : ℤ) = 217 := by exact_mod_cast h20
    omega

/-- C3 amended: the progress callback stores exactly `10 + p * 0.85` into
the record's `progressPercent`; over the engine's actual `0–100` percentage
scale this lies in `[10, 95]`, reaching `10` at `p = 0` and `95` at
`p = 100`.  Stored values are rationals, not necessarily integers. -/
theorem C3_progress_scaling :
    (∀ p : ℚ, 0 ≤ p → p ≤ 100 →
        10 ≤ onProgressValue p ∧ onProgressValue p ≤ 95) ∧
    onProgressValue 0 = 10 ∧ onProgressValue 100 = 95 ∧
    ∀ (p : ℚ) (img : ImageFile), (progressF p img).progress = onProgressValue p := by
  refine ⟨?_, by norm_num [onProgressValue], by norm_num [onProgressValue],
    fun p img => rfl⟩
  intro p h0 h100
  rw [onProgressValue]
  constructor <;> nlinarith

/-- Witness for C3 at `p = 40`: the stored value is within `[10, 95]`. -/
theorem C3_progress_scaling_witness :
    10 ≤ onProgressValue 40 ∧ onProgressValue 40 ≤ 95 :=
  C3_progress_scaling.1 40 (by norm_num) (by norm_num)

/-- C1 is violated by the code: reprocessing a record that previously
reached `error` leaves the stale `error` field on the record even after the
`completed` update, so the batch reaches a state with `status = completed`,
a present result (`optimizedUrl`) and a present `errorInfo` at once. -/
theorem C1_stale_error_after_reprocess :
    ∃ rec, rec ∈ staleErrorState ∧ rec.status = ProcessingStatus.completed ∧
      rec.error = some "Process failed" ∧ rec.optimizedUrl = some "blob:r1" := by
  decide

theorem zipSelB_eq_true_iff (img : ImageFile) :
    zipSelB img = true ↔ zipQualifies img := by
  cases h : img.optimizedUrl with
  | none => simp [zipSelB, zipQualifies, urlPresent, h]
  | some u => simp [zipSelB, zipQualifies, urlPresent, h]

/-- C9: the archive step selects exactly the records with
`status = completed` and a present result handle; selection preserves batch
insertion order (it is a sublist of the batch); with no qualifying record
the operation returns no archive; otherwise the archive has one entry per
selected record, in order, named `displayName` or the generic
`"image.webp"`, whose content dereferences that record's handle. -/
theorem C9_archive_selection (deref : String → List Nat)
    (imgs : List ImageFile) :
    (downloadZip deref imgs = none ↔ ∀ img ∈ imgs, ¬zipQualifies img) ∧
    List.Sublist (imgs.filter zipSelB) imgs ∧
    (∀ img ∈ imgs.filter zipSelB, zipQualifies img) ∧
    (∀ img ∈ imgs, zipQualifies img → img ∈ imgs.filter zipSelB) ∧
    (∀ zs, downloadZip deref imgs = some zs →
        zs = (imgs.filter zipSelB).map (zipEntry deref)) := by
  have hnone : downloadZip deref imgs = none ↔ imgs.filter zipSelB = [] := by
    unfold downloadZip
    by_cases h : (imgs.filter zipSelB).length = 0
    · simp [h, List.length_eq_zero.mp h]
    · simp only [h, if_false]
      constructor
      · intro hc
        exact absurd hc (by simp)
      · intro hc
        exact absurd (by rw [hc]; rfl) h
  refine ⟨?_, List.filter_sublist imgs, ?_, ?_, ?_⟩
  · rw [hnone, List.filter_eq_nil_iff]
    constructor
    · intro h img hm hq
      exact h img hm ((zipSelB_eq_true_iff img).mpr hq)
    · intro h img hm hb
      exact h img hm ((zipSelB_eq_true_iff img).mp hb)
  · intro img hm
    exact (zipSelB_eq_true_iff img).mp (List.of_mem_filter hm)
  · intro img hm hq
    exact List.mem_filter.mpr ⟨hm, (zipSelB_eq_true_iff img).mpr hq⟩
  · intro zs h
    unfold downloadZip at h
    by_cases hlen : (imgs.filter zipSelB).length = 0
    · rw [if_pos hlen] at h
      exact absurd h (by simp)
    · rw [if_neg hlen] at h
      exact (Option.some_injective _ h).symm

/-- Witness for C9 on a batch with one completed record carrying result
handle `"blob:r1"` and display name `"done.webp"`. -/
theorem C9_archive_selection_witness :
    [("done.webp", demoDeref "blob:r1")] =
      ([recCompleted].filter zipSelB).map (zipEntry demoDeref) :=
  (C9_archive_selection demoDeref [recCompleted]).2.2.2.2
    [("done.webp", demoDeref "blob:r1")] (by decide)

/-- C10 counterexample: when image decode fails and the `FileReader` also
rejects, the fallback path of the thumbnail adapter rethrows the read
failure, so the adapter does fail outward. -/
theorem C10_counterexample :
    createAiThumbnailPayload badOracles fileA = .error () := rfl

/-- C10 amended: whenever reading the resized intermediate succeeds, the
thumbnail adapter returns some `{mimeType, base64Data}` payload, and on any
encode failure (decode failure, missing context, rejected jpeg encode, or a
read failure on the encoded thumbnail) it emits the resized bytes verbatim,
base64-encoded, with their original media type; only a read failure on the
fallback itself propagates outward. -/
theorem C10_fallback_payload (o : Oracles) (file : FileM) (d : String)
    (hread : o.read (resizeImageToFit o file 512 512) = .ok d) :
    (∃ p, createAiThumbnailPayload o file = .ok p) ∧
    ((o.decodeOk (resizeImageToFit o file 512 512) = false ∨
        o.ctxOk = false ∨
        o.encodeJpeg (resizeImageToFit o file 512 512).width
          (resizeImageToFit o file 512 512).height = none ∨
        (∃ blob,
          o.encodeJpeg (resizeImageToFit o file 512 512).width
              (resizeImageToFit o file 512 512).height = some blob ∧
            o.read (thumbFileOf (resizeImageToFit o file 512 512) blob) =
              .error ())) →
      createAiThumbnailPayload o file =
        .ok { mimeType := (resizeImageToFit o file 512 512).type
              data := b64Of d }) := by
  constructor
  · cases hdec : o.decodeOk (resizeImageToFit o file 512 512) with
    | false =>
      exact ⟨{ mimeType := (resizeImageToFit o file 512 512).type
               data := b64Of d },
        by simp [createAiThumbnailPayload, fileToDataUrl, hread, hdec]⟩
    | true =>
      cases hctx : o.ctxOk with
      | false =>
        exact ⟨{ mimeType := (resizeImageToFit o file 512 512).type
                 data := b64Of d },
          by simp [createAiThumbnailPayload, fileToDataUrl, hread, hdec, hctx]⟩
      | true =>
        cases henc : o.encodeJpeg (resizeImageToFit o file 512 512).width
            (resizeImageToFit o file 512 512).height with
        | none =>
          exact ⟨{ mimeType := (resizeImageToFit o file 512 512).type
                   data := b64Of d },
            by simp [createAiThumbnailPayload, fileToDataUrl, hread, hdec, hctx,
              henc]⟩
        | some blob =>
          cases hth : o.read (thumbFileOf (resizeImageToFit o file 512 512) blob) with
          | error e =>
            exact ⟨{ mimeType := (resizeImageToFit o file 512 512).type
                     data := b64Of d },
              by simp [createAiThumbnailPayload, fileToDataUrl, hread, hdec, hctx,
                henc, hth]⟩
          | ok du =>
            exact ⟨{ mimeType := (thumbFileOf (resizeImageToFit o file 512 512) blob).type
                     data := b64Of du },
              by simp [createAiThumbnailPayload, fileToDataUrl, hread, hdec, hctx,
                henc, hth]⟩
  · intro hfail
    cases hdec : o.decodeOk (resizeImageToFit o file 512 512) with
    | false => simp [createAiThumbnailPayload, fileToDataUrl, hread, hdec]
    | true =>
      cases hctx : o.ctxOk with
      | false => simp [createAiThumbnailPayload, fileToDataUrl, hread, hdec, hctx]
      | true =>
        cases henc : o.encodeJpeg (resizeImageToFit o file 512 512).width
            (resizeImageToFit o file 512 512).height with
        | none =>
          simp [createAiThumbnailPayload, fileToDataUrl, hread, hdec, hctx, henc]
        | some blob =>
          rcases hfail with h | h | h | ⟨b, hb, hr⟩
          · rw [hdec] at h; exact absurd h (by simp)
          · rw [hctx] at h; exact absurd h (by simp)
          · rw [henc] at h; exact absurd h (by simp)
          · rw [henc] at hb
            have hbb : b = blob := by
              injection hb with h1
              exact h1.symm
            rw [hbb] at hr
            simp [createAiThumbnailPayload, fileToDataUrl, hread, hdec, hctx,
              henc, hr]

/-- Witness for C10 with oracles whose decode fails but whose reader works:
the adapter yields the fallback payload built from the resized bytes. -/
theorem C10_fallback_payload_witness :
    fbOracles.read (resizeImageToFit fbOracles fileA 512 512) =
      .ok "data:image/png;base64,QUJD" ∧
    createAiThumbnailPayload fbOracles fileA =
      .ok { mimeType := (resizeImageToFit fbOracles fileA 512 512).type
            data := b64Of "data:image/png;base64,QUJD" } :=
  ⟨rfl,
   (C10_fallback_payload fbOracles fileA "data:image/png;base64,QUJD" rfl).2
     (Or.inl rfl)⟩

/-- C5 is violated by the code: the cleanup of `useEffect(..., [images])`
runs on every change of `images` and revokes every handle of the previous
array.  After `addFiles [A]; addFiles [B]` the preview handle `"pA"` has
already been revoked once while record `"a"` is still in the batch, and
after a subsequent `clearWorkspace` it has been revoked three times. -/
theorem C5_preview_revoked_while_in_use :
    ((runOps lifecycleOps).revoked.count "pA" = 1 ∧
      (runOps lifecycleOps).images.any (fun r => r.preview == "pA") = true) ∧
    (runOps (lifecycleOps ++ [.clearWorkspace])).revoked.count "pA" = 3 := by
  decide

/-- C4: the batch driver hands exactly the records whose status is not
`completed` to `processImage`, in batch insertion order (the driver is a
sequential fold, so each record's run finishes before the next starts);
which records get processed is independent of any engine failures; and
every processed record reaches a terminal state (`completed` or `error`),
so one record's failure never prevents a later record from being
processed. -/
theorem C4_batch_driver (o : Oracles) (c : Compressor)
    (prog : String → List ℚ) (settings : ProcessingSettings)
    (imgs : List ImageFile) (hids : (imgs.map ImageFile.id).Nodup) :
    (processAllTrace o c prog settings imgs).2 =
        (imgs.filter notCompleted).map ImageFile.id ∧
    (∀ (o' : Oracles) (c' : Compressor) (prog' : String → List ℚ),
        (processAllTrace o' c' prog' settings imgs).2 =
          (imgs.filter notCompleted).map ImageFile.id) ∧
    (∀ rec ∈ imgs, rec.status ≠ ProcessingStatus.completed →
        ∃ rec', rec' ∈ processAll o c prog settings imgs ∧
          rec'.id = rec.id ∧
          (rec'.status = ProcessingStatus.completed ∨
            rec'.status = ProcessingStatus.error)) := by
  refine ⟨?_, ?_, ?_⟩
  · unfold processAllTrace
    rw [traceFold_snd]
    simp
  · intro o' c' prog'
    unfold processAllTrace
    rw [traceFold_snd]
    simp
  · intro rec hrec hst
    have hfil : rec ∈ imgs.filter notCompleted :=
      List.mem_filter.mpr ⟨hrec, (notCompleted_iff rec).mpr hst⟩
    have hmemid : rec.id ∈ (imgs.filter notCompleted).map ImageFile.id :=
      List.mem_map_of_mem ImageFile.id hfil
    have hnd : ((imgs.filter notCompleted).map ImageFile.id).Nodup :=
      ((List.filter_sublist imgs).map ImageFile.id).nodup hids
    have hterm := batchFold_terminal o c prog settings rec.id
      (imgs.filter notCompleted) imgs hnd hmemid
    have hidmap : (processAll o c prog settings imgs).map ImageFile.id =
        imgs.map ImageFile.id := by
      unfold processAll
      exact batchFold_map_id o c prog settings (imgs.filter notCompleted) imgs
    have hmem2 : rec.id ∈ (processAll o c prog settings imgs).map ImageFile.id := by
      rw [hidmap]
      exact List.mem_map_of_mem ImageFile.id hrec
    obtain ⟨rec', hmem', hid'⟩ := List.mem_map.mp hmem2
    refine ⟨rec', hmem', hid', ?_⟩
    have hmem'' : rec' ∈ (imgs.filter notCompleted).foldl
        (fun a image => processImageRun o c (prog image.id) settings image a)
        imgs := hmem'
    exact hterm rec' hmem'' hid'

/-- Witness for C4 on the two-record batch `[recA, recB]` under an engine
that always fails. -/
theorem C4_batch_driver_witness :
    (processAllTrace demoOracles failCompressor (fun _ => []) demoSettings
        [recA, recB]).2 =
      ([recA, recB].filter notCompleted).map ImageFile.id :=
  (C4_batch_driver demoOracles failCompressor (fun _ => []) demoSettings
      [recA, recB] (by decide)).1

/-- C8: for an image input with positive bounds whose decode and encode
succeed (the encoder honouring the requested media type), resize computes
`scale = min(maxWidth/width, maxHeight/height, 1)`; when `scale ≥ 1` the
input is returned unchanged (never upscaled), and otherwise the output is
an encoded payload at `round(width*scale) × round(height*scale)`, each
dimension at least `1`, with the input's media type. -/
theorem C8_resize_contract (o : Oracles) (file : FileM)
    (maxWidth maxHeight : ℚ)
    (himg : strStartsWith file.type "image/" = true)
    (hW : 0 < maxWidth) (hH : 0 < maxHeight)
    (hdec : o.decodeOk file = true) (hctx : o.ctxOk = true)
    (henc : ∀ w h t, ∃ b, o.encode w h t = some b ∧ b.btype = t) :
    scaleFor file maxWidth maxHeight =
      min (min (maxWidth / (file.width : ℚ)) (maxHeight / (file.height : ℚ))) 1 ∧
    (1 ≤ scaleFor file maxWidth maxHeight →
        resizeImageToFit o file maxWidth maxHeight = file) ∧
    (scaleFor file maxWidth maxHeight < 1 →
        (resizeImageToFit o file maxWidth maxHeight).width =
            targetWidthFor file maxWidth maxHeight ∧
        (resizeImageToFit o file maxWidth maxHeight).height =
            targetHeightFor file maxWidth maxHeight ∧
        1 ≤ targetWidthFor file maxWidth maxHeight ∧
        1 ≤ targetHeightFor file maxWidth maxHeight ∧
        (resizeImageToFit o file maxWidth maxHeight).type = file.type) := by
  refine ⟨rfl, ?_, ?_⟩
  · intro hs
    simp [resizeImageToFit, himg, hdec, hW, hH, hs]
  · intro hs
    obtain ⟨b, hb, hbt⟩ :=
      henc (targetWidthFor file maxWidth maxHeight)
        (targetHeightFor file maxWidth maxHeight) file.type
    have hres : resizeImageToFit o file maxWidth maxHeight =
        { name := file.name
          type := if b.btype = "" then file.type else b.btype
          size := b.bsize
          width := targetWidthFor file maxWidth maxHeight
          height := targetHeightFor file maxWidth maxHeight
          lastModified := file.lastModified } := by
      simp [resizeImageToFit, himg, hdec, hctx, hW, hH, not_le.mpr hs, hb]
    refine ⟨by rw [hres], by rw [hres], le_max_left 1 _, le_max_left 1 _, ?_⟩
    rw [hres, hbt]
    simp [ite_self]

/-- Witness for C8 on a 1600×1200 jpeg with bounds 800×600: the scale is
below `1` and the output carries the target dimensions and input type. -/
theorem C8_resize_contract_witness :
    scaleFor bigFile 800 600 < 1 ∧
    ((resizeImageToFit demoOracles bigFile 800 600).width =
        targetWidthFor bigFile 800 600 ∧
      (resizeImageToFit demoOracles bigFile 800 600).height =
        targetHeightFor bigFile 800 600 ∧
      1 ≤ targetWidthFor bigFile 800 600 ∧
      1 ≤ targetHeightFor bigFile 800 600 ∧
      (resizeImageToFit demoOracles bigFile 800 600).type = bigFile.type) :=
  have hs : scaleFor bigFile 800 600 < 1 := by
    norm_num [scaleFor, bigFile, min_def]
  ⟨hs,
   (C8_resize_contract demoOracles bigFile 800 600 (by decide) (by norm_num)
       (by norm_num) rfl rfl
       (fun w h t => ⟨{ btype := t, bsize := 10 }, rfl, rfl⟩)).2.2 hs⟩

end Kraken
